import Mathlib

/-!
Verification of the ctile tile-caching HTTP handler (src/main.go).

The Go program is shallowly embedded: pure helpers (`parseQueryParams`,
`makeTile`, `tile.key`, `tile.url`) become Lean functions over `Int`
(Go `int64` values, with explicit wrap-around at 2^64 where the source's
arithmetic can overflow), and the effectful functions
(`getTileFromBackend`, `getFromS3`, `writeToS3`, `ServeHTTP`) become
functions of explicit oracle parameters describing what the network / S3
returned, so every run of the handler is a pure computation on those
oracles.  Go run-time panics (out-of-range slice indexes) are modelled as
a distinguished `panicked` result.
-/

/-! ## Go int64 arithmetic -/

/-- Smallest Go `int64` value. -/
def int64Min : Int := -(2 ^ 63)

/-- Largest Go `int64` value. -/
def int64Max : Int := 2 ^ 63 - 1

/-- Wrap an integer into the Go `int64` range (two's-complement wrap-around). -/
def wrap64 (x : Int) : Int := (x + 2 ^ 63) % 2 ^ 64 - 2 ^ 63

/-- Go `int64` addition (wraps on overflow, as the Go language guarantees). -/
def add64 (a b : Int) : Int := wrap64 (a + b)

/-- Go `int64` subtraction (wraps on overflow). -/
def sub64 (a b : Int) : Int := wrap64 (a - b)

theorem wrap64_eq_self {x : Int} (h1 : int64Min ≤ x) (h2 : x ≤ int64Max) :
    wrap64 x = x := by
  unfold wrap64
  have hlo : (0 : Int) ≤ x + 2 ^ 63 := by simp [int64Min] at h1; omega
  have hhi : x + 2 ^ 63 < 2 ^ 64 := by simp [int64Max] at h2; omega
  rw [Int.emod_eq_of_lt hlo hhi]
  omega

theorem wrap64_mem_range (x : Int) : int64Min ≤ wrap64 x ∧ wrap64 x ≤ int64Max := by
  unfold wrap64 int64Min int64Max
  have h1 : (0 : Int) ≤ (x + 2 ^ 63) % 2 ^ 64 := Int.emod_nonneg _ (by norm_num)
  have h2 : (x + 2 ^ 63) % 2 ^ 64 < 2 ^ 64 := Int.emod_lt_of_pos _ (by norm_num)
  omega

theorem add64_eq_add {a b : Int} (h1 : int64Min ≤ a + b) (h2 : a + b ≤ int64Max) :
    add64 a b = a + b := wrap64_eq_self h1 h2

theorem sub64_eq_sub {a b : Int} (h1 : int64Min ≤ a - b) (h2 : a - b ≤ int64Max) :
    sub64 a b = a - b := wrap64_eq_self h1 h2

/-! ## Decimal rendering (model of Go's `fmt.Sprintf("%d", _)` / `strconv`) -/

/-- Digit-by-digit decimal rendering, fuel-based so that it is structurally
recursive (the fuel `n + 1` always suffices for the number `n`). -/
def decDigitsCore : Nat → Nat → List Char → List Char
  | 0, _, ds => ds
  | fuel + 1, n, ds =>
    if n < 10 then Char.ofNat (48 + n % 10) :: ds
    else decDigitsCore fuel (n / 10) (Char.ofNat (48 + n % 10) :: ds)

/-- The decimal digits of `n`, most significant first. -/
def decDigits (n : Nat) : List Char := decDigitsCore (n + 1) n []

/-- Rendering of a nonnegative integer, as Go's `%d` verb prints a length. -/
def goNatRepr (n : Nat) : String := ⟨decDigits n⟩

/-- Rendering of a Go `int64`, as Go's `%d` verb prints it. -/
def goIntRepr (i : Int) : String :=
  if i < 0 then ⟨'-' :: decDigits i.natAbs⟩ else ⟨decDigits i.toNat⟩

theorem digitChar_toNat : ∀ d, d < 10 → (Char.ofNat (48 + d)).toNat = 48 + d := by decide

theorem decDigitsCore_digits :
    ∀ (fuel n : Nat) (ds : List Char), (∀ c ∈ ds, 48 ≤ c.toNat ∧ c.toNat ≤ 57) →
      ∀ c ∈ decDigitsCore fuel n ds, 48 ≤ c.toNat ∧ c.toNat ≤ 57 := by
  intro fuel
  induction fuel with
  | zero => intro n ds hds c hc; exact hds c hc
  | succ fuel ih =>
    intro n ds hds c hc
    have hdig : 48 ≤ (Char.ofNat (48 + n % 10)).toNat ∧ (Char.ofNat (48 + n % 10)).toNat ≤ 57 := by
      have h10 : n % 10 < 10 := Nat.mod_lt _ (by omega)
      rw [digitChar_toNat _ h10]; omega
    simp only [decDigitsCore] at hc
    split at hc
    · rw [List.mem_cons] at hc
      rcases hc with h | h
      · exact h ▸ hdig
      · exact hds c h
    · refine ih (n / 10) _ ?_ c hc
      intro c' hc'
      rw [List.mem_cons] at hc'
      rcases hc' with h | h
      · exact h ▸ hdig
      · exact hds c' h

theorem decDigits_digits (n : Nat) : ∀ c ∈ decDigits n, 48 ≤ c.toNat ∧ c.toNat ≤ 57 :=
  decDigitsCore_digits (n + 1) n [] (by simp)

theorem slash_not_mem_decDigits (n : Nat) : '/' ∉ decDigits n := by
  intro h
  have := decDigits_digits n '/' h
  revert this; decide

theorem dot_not_mem_decDigits (n : Nat) : '.' ∉ decDigits n := by
  intro h
  have := decDigits_digits n '.' h
  revert this; decide

theorem decDigitsCore_append :
    ∀ (fuel n : Nat) (ds : List Char),
      decDigitsCore fuel n ds = decDigitsCore fuel n [] ++ ds := by
  intro fuel
  induction fuel with
  | zero => intro n ds; simp [decDigitsCore]
  | succ fuel ih =>
    intro n ds
    simp only [decDigitsCore]
    split
    · simp
    · rw [ih (n / 10) [Char.ofNat (48 + n % 10)], ih (n / 10) (Char.ofNat (48 + n % 10) :: ds)]
      simp

/-- Recover the numeric value of a digit list (left fold, like reading decimal). -/
def valOfAux : Nat → List Char → Nat
  | acc, [] => acc
  | acc, c :: cs => valOfAux (acc * 10 + (c.toNat - 48)) cs

theorem valOfAux_nil (acc : Nat) : valOfAux acc [] = acc := rfl

theorem valOfAux_cons (acc : Nat) (c : Char) (cs : List Char) :
    valOfAux acc (c :: cs) = valOfAux (acc * 10 + (c.toNat - 48)) cs := rfl

theorem valOfAux_append (l1 : List Char) :
    ∀ (acc : Nat) (l2 : List Char), valOfAux acc (l1 ++ l2) = valOfAux (valOfAux acc l1) l2 := by
  induction l1 with
  | nil => intro acc l2; rfl
  | cons c cs ih =>
    intro acc l2
    rw [List.cons_append, valOfAux_cons, valOfAux_cons]
    exact ih _ _

theorem valOfAux_decDigitsCore :
    ∀ (fuel n : Nat), n < 10 ^ fuel → ∀ acc : Nat,
      valOfAux acc (decDigitsCore fuel n []) =
        acc * 10 ^ (decDigitsCore fuel n []).length + n := by
  intro fuel
  induction fuel with
  | zero =>
    intro n hn acc
    have hn0 : n = 0 := by rw [pow_zero] at hn; omega
    subst hn0
    have h0 : decDigitsCore 0 0 [] = [] := rfl
    rw [h0, valOfAux_nil]
    simp
  | succ fuel ih =>
    intro n hn acc
    simp only [decDigitsCore]
    split
    · rename_i h10
      have hmod : n % 10 = n := Nat.mod_eq_of_lt h10
      rw [valOfAux_cons, valOfAux_nil, hmod, digitChar_toNat n h10]
      simp only [List.length_cons, List.length_nil, pow_one]
      omega
    · rename_i h10
      rw [decDigitsCore_append, valOfAux_append]
      have hdiv : n / 10 < 10 ^ fuel := by
        rw [Nat.div_lt_iff_lt_mul (by omega)]
        calc n < 10 ^ (fuel + 1) := hn
        _ = 10 ^ fuel * 10 := by rw [Nat.pow_succ]
      rw [ih (n / 10) hdiv acc]
      rw [valOfAux_cons, valOfAux_nil, digitChar_toNat (n % 10) (Nat.mod_lt _ (by omega))]
      simp only [List.length_append, List.length_cons, List.length_nil, Nat.zero_add]
      rw [Nat.pow_succ, ← Nat.mul_assoc]
      have hA : ∃ A, acc * 10 ^ (decDigitsCore fuel (n / 10) []).length = A := ⟨_, rfl⟩
      obtain ⟨A, hA⟩ := hA
      rw [hA]
      omega

theorem lt_ten_pow_succ_self (n : Nat) : n < 10 ^ (n + 1) := by
  calc n < 2 ^ n := Nat.lt_two_pow n
  _ ≤ 10 ^ n := Nat.pow_le_pow_left (by omega) n
  _ ≤ 10 ^ (n + 1) := Nat.pow_le_pow_right (by omega) (by omega)

theorem valOf_decDigits (n : Nat) : valOfAux 0 (decDigits n) = n := by
  have := valOfAux_decDigitsCore (n + 1) n (lt_ten_pow_succ_self n) 0
  simpa [decDigits] using this

theorem decDigits_inj {a b : Nat} (h : decDigits a = decDigits b) : a = b := by
  have ha := valOf_decDigits a
  have hb := valOf_decDigits b
  rw [h] at ha
  omega

/-- Splitting a concatenation on a separator character that occurs in neither
left part determines both parts. -/
theorem sep_split {sep : Char} :
    ∀ (a c b d : List Char), sep ∉ a → sep ∉ c →
      a ++ sep :: b = c ++ sep :: d → a = c ∧ b = d := by
  intro a
  induction a with
  | nil =>
    intro c b d _ hc h
    cases c with
    | nil => simpa using h
    | cons y c' =>
      simp only [List.nil_append, List.cons_append, List.cons.injEq] at h
      exact absurd (h.1 ▸ List.mem_cons_self y c') (h.1 ▸ hc)
  | cons x a' ih =>
    intro c b d ha hc h
    cases c with
    | nil =>
      simp only [List.cons_append, List.nil_append, List.cons.injEq] at h
      exact absurd (h.1 ▸ List.mem_cons_self x a') (h.1 ▸ ha)
    | cons y c' =>
      simp only [List.cons_append, List.cons.injEq] at h
      have ha' : sep ∉ a' := fun hm => ha (List.mem_cons_of_mem _ hm)
      have hc' : sep ∉ c' := fun hm => hc (List.mem_cons_of_mem _ hm)
      obtain ⟨h1, h2⟩ := ih c' b d ha' hc' h.2
      exact ⟨by rw [h.1, h1], h2⟩

/-! ## parseQueryParams (src/main.go lines 27-53) -/

/-- Decimal digit parsing used by the model of `strconv.ParseInt`: `none` when
the character list is empty or contains a non-digit. -/
def parseDigitsAux : Nat → List Char → Option Nat
  | acc, [] => some acc
  | acc, c :: cs =>
    if 48 ≤ c.toNat ∧ c.toNat ≤ 57 then parseDigitsAux (acc * 10 + (c.toNat - 48)) cs
    else none

def parseDigits : List Char → Option Nat
  | [] => none
  | l => parseDigitsAux 0 l

/-- Model of Go's `strconv.ParseInt(s, 10, 64)`: an optional leading sign
followed by at least one decimal digit, with the value required to fit in
`int64`; `none` models a non-nil error (syntax or range). -/
def goParseInt64 (s : String) : Option Int :=
  match s.data with
  | [] => none
  | '+' :: rest =>
    match parseDigits rest with
    | none => none
    | some n => if (n : Int) ≤ int64Max then some (n : Int) else none
  | '-' :: rest =>
    match parseDigits rest with
    | none => none
    | some n => if (n : Int) ≤ 2 ^ 63 then some (-(n : Int)) else none
  | l =>
    match parseDigits l with
    | none => none
    | some n => if (n : Int) ≤ int64Max then some (n : Int) else none

/-- Model of `parseQueryParams`.  `url.Values.Get` returns `""` for a missing
parameter, so the two query parameters are modelled as the strings Go would
see.  The returned pair is `(startInt, endInt + 1)` with the `+ 1` computed in
Go `int64` arithmetic, exactly as in the source.  The two `invalid ...`
messages elide the `": %w"` detail suffix of the source's `fmt.Errorf`; no
claim depends on those two message texts. -/
def parseQueryParams (startS endS : String) : Except String (Int × Int) :=
  if startS = "" then .error "missing start parameter"
  else if endS = "" then .error "missing end parameter"
  else
    match goParseInt64 startS with
    | none => .error "invalid start parameter"
    | some startInt =>
      if startInt < 0 then .error "invalid start parameter"
      else
        match goParseInt64 endS with
        | none => .error "invalid end parameter"
        | some endInt =>
          if endInt < 0 then .error "invalid end parameter"
          else if endInt < startInt then .error "end must be greater than or equal to start"
          else .ok (startInt, add64 endInt 1)

/-! ## tile (src/main.go lines 55-91) -/

/-- The `tile` struct.  `start` is inclusive and `end_` exclusive, the
half-open interval `[start, end_)`; `end_` renders the Go field `end`,
which is a reserved word in Lean. -/
structure tile where
  start : Int
  end_ : Int
  size : Int
  logURL : String
deriving DecidableEq

/-- Model of `makeTile`: `tileOffset := start % size` (Go's `%` is the
truncated remainder, `Int.tmod`), `tileStart := start - tileOffset`, and the
tile is `[tileStart, tileStart + size)` with both arithmetic operations
performed on Go `int64` values. -/
def makeTile (start size : Int) (logURL : String) : tile :=
  let tileOffset := Int.tmod start size
  let tileStart := sub64 start tileOffset
  { start := tileStart, end_ := add64 tileStart size, size := size, logURL := logURL }

/-- Model of `tile.key`: `fmt.Sprintf("tile_size=%d/%d.cbor.gz", t.size, t.start)`. -/
def tile.key (t : tile) : String :=
  "tile_size=" ++ goIntRepr t.size ++ "/" ++ goIntRepr t.start ++ ".cbor.gz"

/-- Model of `tile.url`:
`fmt.Sprintf("%s/ct/v1/get-entries?start=%d&end=%d", t.logURL, t.start, t.end-1)`,
the `t.end - 1` computed in Go `int64` arithmetic. -/
def tile.url (t : tile) : String :=
  t.logURL ++ "/ct/v1/get-entries?start=" ++ goIntRepr t.start ++ "&end=" ++
    goIntRepr (sub64 t.end_ 1)

/-! ## entries, backend fetch, S3 cache (src/main.go lines 93-226)

The network and S3 are oracles: a value of the oracle type records what the
external system returned on this request, and the embedded function computes
what the Go code does with it. -/

/-- One CT log entry (the two byte fields are opaque to the program). -/
structure entry where
  leafInput : List Nat
  extraData : List Nat
deriving DecidableEq

/-- The message of `statusCodeError.Error()`. -/
def statusCodeErrorMessage (code : Nat) (body : String) : String :=
  "backend responded with status code " ++ goNatRepr code ++ " and body:\n" ++ body

/-- What the backend HTTP exchange produced, before `getTileFromBackend`'s own
logic runs: a transport error, a non-200 status with its body, a 200 whose
JSON failed to decode, or a 200 decoded into a list of entries. -/
inductive BackendResp where
  | transportErr (msg : String)
  | nonOK (code : Nat) (body : String)
  | badJSON (msg : String)
  | okJSON (es : List entry)
deriving DecidableEq

/-- Result of `getTileFromBackend`: entries, a `statusCodeError` (carrying the
backend status code and raw body), or any other error. -/
inductive FetchResult where
  | ok (es : List entry)
  | statusErr (code : Nat) (body : String)
  | err (msg : String)
deriving DecidableEq

/-- Model of `getTileFromBackend` (lines 121-156). -/
def getTileFromBackend (t : tile) (resp : BackendResp) : FetchResult :=
  match resp with
  | .transportErr m => .err ("fetching " ++ t.url ++ ": " ++ m)
  | .nonOK code body => .statusErr code body
  | .badJSON m => .err ("reading body from " ++ t.url ++ ": " ++ m)
  | .okJSON es =>
    if (es.length : Int) > t.size ∨ es.length = 0 then
      .err ("expected " ++ goIntRepr t.size ++ " entries, got " ++ goNatRepr es.length)
    else .ok es

/-- What the S3 GetObject exchange produced, before `getFromS3`'s own logic
runs: the store's no-such-key condition, an I/O error, a stored object that
failed to decompress/decode, or a decoded list of entries. -/
inductive S3GetResp where
  | noSuchKeyResp
  | ioErr (msg : String)
  | corrupt (msg : String)
  | found (es : List entry)
deriving DecidableEq

/-- Result of `getFromS3`: entries, the `noSuchKey` sentinel, or an error. -/
inductive S3GetResult where
  | ok (es : List entry)
  | noKey
  | err (msg : String)
deriving DecidableEq

/-- Model of `getFromS3` (lines 195-226), including its final consistency
check `len(entries.Entries) != int(t.size) || t.end != t.start+t.size`. -/
def getFromS3 (t : tile) (resp : S3GetResp) : S3GetResult :=
  match resp with
  | .noSuchKeyResp => .noKey
  | .ioErr m => .err ("getting from bucket: " ++ m)
  | .corrupt m => .err ("reading body from bucket: " ++ m)
  | .found es =>
    if (es.length : Int) ≠ t.size ∨ t.end_ ≠ add64 t.start t.size then
      .err "internal inconsistency"
    else .ok es

/-- Oracle for `writeToS3`'s three fallible effects: the CBOR encode, the
gzip writer close, and the S3 PutObject, each `some errorMessage` when that
step fails. -/
structure S3PutEnv where
  encodeErr : Option String
  closeErr : Option String
  putErr : Option String
deriving DecidableEq

/-- Outcome of `writeToS3`: whether control reached the `PutObject` call, and
the error value the function returns (`none` = nil). -/
structure S3WriteOutcome where
  putAttempted : Bool
  errMsg : Option String
deriving DecidableEq

/-- Model of `writeToS3` (lines 158-186).  Note the source's encode branch:

    err := cbor.NewEncoder(w).Encode(e)
    if err != nil {
        return nil
    }

on an encode error it returns `nil` (no error), dropping the failure. -/
def writeToS3 (t : tile) (e : List entry) (env : S3PutEnv) : S3WriteOutcome :=
  if (e.length : Int) ≠ t.size ∨ t.end_ ≠ add64 t.start t.size then
    { putAttempted := false, errMsg := some "internal inconsistency" }
  else
    match env.encodeErr with
    | some _ => { putAttempted := false, errMsg := none }
    | none =>
      match env.closeErr with
      | some m => { putAttempted := false, errMsg := some ("closing gzip writer: " ++ m) }
      | none =>
        match env.putErr with
        | some m => { putAttempted := true, errMsg := some ("putting in bucket: " ++ m) }
        | none => { putAttempted := true, errMsg := none }

/-! ## ServeHTTP (src/main.go lines 228-321) -/

/-- The handler configuration that the claims depend on (`s3Service`,
`s3Prefix` and `s3Bucket` only feed the S3 oracles and carry no logic). -/
structure tileCachingHandler where
  logURL : String
  tileSize : Int

inductive ResponseBody where
  | text (s : String)
  | json (es : List entry)
deriving DecidableEq

structure HTTPResponse where
  status : Nat
  headers : List (String × String)
  body : ResponseBody
deriving DecidableEq

/-- A handler run either writes one HTTP response or panics (Go run-time
panic, e.g. a slice bound violation). -/
inductive HandlerResult where
  | resp (r : HTTPResponse)
  | panicked (msg : String)
deriving DecidableEq

structure HandlerOutcome where
  result : HandlerResult
  /-- Whether control flow reached the `tch.writeToS3(...)` call. -/
  writeToS3Called : Bool
deriving DecidableEq

/-- The external world of one request: what S3 GetObject returned, what the
backend returned, and how the three steps of the S3 write behaved. -/
structure ServeEnv where
  cacheResp : S3GetResp
  backendResp : BackendResp
  putEnv : S3PutEnv
deriving DecidableEq

/-- Model of `strings.HasSuffix(s, suffix)` (character-level suffix test). -/
def goHasSuffix (s sfx : String) : Bool := sfx.data.isSuffixOf s.data

/-- Go slice expression `es[i:]` — panics (`none`) unless `0 ≤ i ≤ len(es)`. -/
def goSliceFrom (es : List entry) (i : Int) : Option (List entry) :=
  if 0 ≤ i ∧ i ≤ (es.length : Int) then some (es.drop i.toNat) else none

/-- Go slice expression `es[:i]` — panics (`none`) unless `0 ≤ i ≤ len(es)`. -/
def goSliceUpTo (es : List entry) (i : Int) : Option (List entry) :=
  if 0 ≤ i ∧ i ≤ (es.length : Int) then some (es.take i.toNat) else none

/-- Model of ServeHTTP's truncation-and-respond tail (lines 292-321):
`prefixToRemove := start - tile.start`; 400 when it reaches past the batch;
otherwise drop it, cap at `requestedLen := end - start`, and answer 200 with
the `X-Response-Len` header.  `hs` is the set of headers already placed on the
response writer; both `WriteHeader` calls send them. -/
def truncateAndRespond (start endPos : Int) (t : tile) (es : List entry)
    (hs : List (String × String)) : HandlerResult :=
  let prefixToRemove := sub64 start t.start
  if prefixToRemove ≥ (es.length : Int) then
    .resp { status := 400, headers := hs,
            body := .text "requested range is past the end of the log" }
  else
    match goSliceFrom es prefixToRemove with
    | none => .panicked "slice bounds out of range"
    | some es1 =>
      let requestedLen := sub64 endPos start
      if (es1.length : Int) > requestedLen then
        match goSliceUpTo es1 requestedLen with
        | none => .panicked "slice bounds out of range"
        | some es2 =>
          .resp { status := 200,
                  headers := hs ++ [("X-Response-Len", goNatRepr es2.length)],
                  body := .json es2 }
      else
        .resp { status := 200,
                headers := hs ++ [("X-Response-Len", goNatRepr es1.length)],
                body := .json es1 }

/-- Model of `ServeHTTP` (lines 239-321).  The 404 body renders `%q` as plain
double quotes (no claim depends on `%q` escaping). -/
def ServeHTTP (tch : tileCachingHandler) (path startQ endQ : String)
    (env : ServeEnv) : HandlerOutcome :=
  if ¬ (goHasSuffix path "/ct/v1/get-entries") then
    { result := .resp { status := 404, headers := [],
                        body := .text ("invalid path \"" ++ path ++ "\"\n") },
      writeToS3Called := false }
  else
    match parseQueryParams startQ endQ with
    | .error msg =>
      { result := .resp { status := 400, headers := [], body := .text (msg ++ "\n") },
        writeToS3Called := false }
    | .ok (start, endPos) =>
      let t := makeTile start tch.tileSize tch.logURL
      match getFromS3 t env.cacheResp with
      | .err m =>
        { result := .resp { status := 500, headers := [],
                            body := .text ("reading from s3: " ++ m ++ "\n") },
          writeToS3Called := false }
      | .noKey =>
        match getTileFromBackend t env.backendResp with
        | .statusErr code body =>
          { result := .resp { status := code, headers := [],
                              body := .text (statusCodeErrorMessage code body ++ "\n") },
            writeToS3Called := false }
        | .err m =>
          { result := .resp { status := 500, headers := [], body := .text (m ++ "\n") },
            writeToS3Called := false }
        | .ok contents =>
          if (contents.length : Int) = tch.tileSize then
            let w := writeToS3 t contents env.putEnv
            match w.errMsg with
            | some m =>
              { result := .resp { status := 500, headers := [],
                                  body := .text ("writing to s3: " ++ m ++ "\n") },
                writeToS3Called := true }
            | none =>
              { result := truncateAndRespond start endPos t contents [("X-Source", "CT log")],
                writeToS3Called := true }
          else
            { result := truncateAndRespond start endPos t contents
                [("X-Partial-Tile", "true"), ("X-Source", "CT log")],
              writeToS3Called := false }
      | .ok contents =>
        { result := truncateAndRespond start endPos t contents [("X-Source", "S3")],
          writeToS3Called := false }

/-! ## Helper lemmas -/

theorem string_data_append (a b : String) : (a ++ b).data = a.data ++ b.data := rfl

theorem goParseInt64_range {s : String} {v : Int} (h : goParseInt64 s = some v) :
    int64Min ≤ v ∧ v ≤ int64Max := by
  unfold goParseInt64 at h
  repeat' split at h
  all_goals
    first
    | exact Option.noConfusion h
    | (simp only [Option.some.injEq] at h
       subst h
       simp only [int64Min, int64Max] at *
       omega)

/-- Inversion for a successful `parseQueryParams`. -/
theorem parseQueryParams_ok {a b : String} {s e : Int}
    (h : parseQueryParams a b = .ok (s, e)) :
    a ≠ "" ∧ b ≠ "" ∧ ∃ w, goParseInt64 a = some s ∧ goParseInt64 b = some w ∧
      0 ≤ s ∧ 0 ≤ w ∧ s ≤ w ∧ e = add64 w 1 := by
  unfold parseQueryParams at h
  split at h
  · exact absurd h (by simp)
  rename_i ha
  split at h
  · exact absurd h (by simp)
  rename_i hb
  split at h
  · exact absurd h (by simp)
  rename_i startInt hps
  split at h
  · exact absurd h (by simp)
  rename_i hsneg
  split at h
  · exact absurd h (by simp)
  rename_i endInt hpe
  split at h
  · exact absurd h (by simp)
  rename_i heneg
  split at h
  · exact absurd h (by simp)
  rename_i hlt
  simp only [Except.ok.injEq, Prod.mk.injEq] at h
  obtain ⟨h1, h2⟩ := h
  subst h1
  subst h2
  exact ⟨ha, hb, endInt, hps, hpe, by omega, by omega, by omega, rfl⟩

/-! ## Claim C4 -/

/-- Claim C4 as literally stated is false on the code: at
`requestedStart = 2^63 - 1` (a value `parseQueryParams` accepts) with
`size = 1000`, the Go computation `tileStart + size` overflows `int64`, so
the resulting tile's `end` is negative: `requestedStart < tile.end` and
`tile.end == tile.start + size` both fail. -/
theorem claim_C4_counterexample :
    ¬ ((9223372036854775807 : Int) < (makeTile 9223372036854775807 1000 "log").end_) ∧
    (makeTile 9223372036854775807 1000 "log").end_ ≠
      (makeTile 9223372036854775807 1000 "log").start + 1000 := by decide

/-- Claim C4 (amended): for every `size > 0` and `0 ≤ requestedStart ≤ int64Max`
such that the aligned start plus `size` still fits in `int64` (no overflow in
`tileStart + size`), the tile returned by `makeTile` satisfies
`tile.start ≤ requestedStart < tile.end`, `tile.start % size == 0`,
`tile.start ≥ 0` and `tile.end == tile.start + size`. -/
theorem claim_C4 (requestedStart size : Int) (logURL : String)
    (h1 : 0 < size) (h2 : 0 ≤ requestedStart) (h3 : requestedStart ≤ int64Max)
    (h4 : requestedStart - Int.tmod requestedStart size + size ≤ int64Max) :
    (makeTile requestedStart size logURL).start ≤ requestedStart ∧
    requestedStart < (makeTile requestedStart size logURL).end_ ∧
    Int.tmod (makeTile requestedStart size logURL).start size = 0 ∧
    0 ≤ (makeTile requestedStart size logURL).start ∧
    (makeTile requestedStart size logURL).end_ = (makeTile requestedStart size logURL).start + size := by
  have hm : 0 ≤ Int.tmod requestedStart size := Int.tmod_nonneg size h2
  have hlt : Int.tmod requestedStart size < size := Int.tmod_lt_of_pos requestedStart h1
  have htd : Int.tmod requestedStart size + size * (requestedStart.tdiv size) = requestedStart :=
    Int.tmod_add_tdiv _ _
  have htdnn : 0 ≤ requestedStart.tdiv size := Int.tdiv_nonneg h2 (le_of_lt h1)
  have hrle : Int.tmod requestedStart size ≤ requestedStart := by nlinarith
  have hstart : (makeTile requestedStart size logURL).start
      = requestedStart - Int.tmod requestedStart size := by
    show sub64 requestedStart (Int.tmod requestedStart size)
        = requestedStart - Int.tmod requestedStart size
    apply sub64_eq_sub
    · simp only [int64Min]
      omega
    · simp only [int64Max] at h3 ⊢
      omega
  have hend : (makeTile requestedStart size logURL).end_
      = requestedStart - Int.tmod requestedStart size + size := by
    show add64 (sub64 requestedStart (Int.tmod requestedStart size)) size
        = requestedStart - Int.tmod requestedStart size + size
    have : sub64 requestedStart (Int.tmod requestedStart size)
        = requestedStart - Int.tmod requestedStart size := hstart
    rw [this]
    apply add64_eq_add
    · simp only [int64Min]
      omega
    · exact h4
  refine ⟨?_, ?_, ?_, ?_, ?_⟩
  · rw [hstart]; omega
  · rw [hend]; omega
  · rw [hstart]
    have : requestedStart - Int.tmod requestedStart size = size * requestedStart.tdiv size := by
      omega
    rw [this, Int.mul_tmod_right]
  · rw [hstart]; omega
  · rw [hend, hstart]

/-- Witness for claim C4's amended theorem at `requestedStart = 1234`,
`size = 1000`. -/
theorem claim_C4_witness :
    (makeTile 1234 1000 "log").start ≤ 1234 ∧
    (1234 : Int) < (makeTile 1234 1000 "log").end_ ∧
    Int.tmod (makeTile 1234 1000 "log").start 1000 = 0 ∧
    0 ≤ (makeTile 1234 1000 "log").start ∧
    (makeTile 1234 1000 "log").end_ = (makeTile 1234 1000 "log").start + 1000 :=
  claim_C4 1234 1000 "log" (by decide) (by decide) (by decide) (by decide)

/-! ## Claim C10 -/

/-- Claim C10 as stated is false on the code: with `start=0` and
`end=9223372036854775807` (both accepted by `parseQueryParams`), the returned
internal end is `endInt + 1` computed in `int64` arithmetic, which wraps to
`-2^63`, so it is NOT strictly greater than the returned start. -/
theorem claim_C10_counterexample :
    parseQueryParams "0" "9223372036854775807" = .ok (0, -9223372036854775808) ∧
    ¬ ((0 : Int) < -9223372036854775808) := ⟨by rfl, by decide⟩

/-- Claim C10 (amended): for every accepted input the returned internal end is
`endInt + 1` and is strictly greater than the returned start, EXCEPT at the
boundary `endInt = 2^63 - 1`, where the `int64` addition `endInt + 1` wraps to
`-2^63`, which is strictly smaller than the returned start. -/
theorem claim_C10 (startS endS : String) (s e w : Int)
    (hok : parseQueryParams startS endS = .ok (s, e))
    (hw : goParseInt64 endS = some w) :
    (w < int64Max → e = w + 1 ∧ s < e) ∧
    (w = int64Max → e = int64Min ∧ e < s) := by
  obtain ⟨-, -, w', -, hw', hs0, hw0, hsw, he⟩ := parseQueryParams_ok hok
  rw [hw] at hw'
  have hww : w' = w := by
    simpa using hw'.symm
  subst hww
  have hrange := goParseInt64_range hw
  constructor
  · intro hlt
    have : add64 w' 1 = w' + 1 := by
      apply add64_eq_add
      · simp only [int64Min, int64Max] at *
        omega
      · simp only [int64Min, int64Max] at *
        omega
    rw [he, this]
    omega
  · intro heq
    subst heq
    have h1 : add64 int64Max 1 = int64Min := by decide
    rw [he, h1]
    refine ⟨rfl, ?_⟩
    simp only [int64Min]
    omega

/-- Witness for claim C10's amended theorem at `start=3`, `end=7`. -/
theorem claim_C10_witness :
    ((7 : Int) < int64Max → (8 : Int) = 7 + 1 ∧ (3 : Int) < 8) ∧
    ((7 : Int) = int64Max → (8 : Int) = int64Min ∧ (8 : Int) < 3) :=
  claim_C10 "3" "7" 3 8 7 (by rfl) (by rfl)

/-! ## Claim C2 -/

/-- Claim C2 is right and the code is wrong: when the CBOR encode step fails,
`writeToS3` executes `return nil`, reporting success, and the handler serves a
200 — the tile is silently not cached and no 500 is produced.  This theorem
evaluates the code at such a failing input: a full 2-entry tile whose encode
step errors. -/
theorem claim_C2 :
    writeToS3 ⟨0, 2, 2, "u"⟩ [⟨[0], []⟩, ⟨[1], []⟩] ⟨some "cbor encode failure", none, none⟩
      = { putAttempted := false, errMsg := none } ∧
    ServeHTTP ⟨"u", 2⟩ "/ct/v1/get-entries" "0" "0"
      ⟨.noSuchKeyResp, .okJSON [⟨[0], []⟩, ⟨[1], []⟩], ⟨some "cbor encode failure", none, none⟩⟩
      = { result := .resp { status := 200,
                            headers := [("X-Source", "CT log"), ("X-Response-Len", "1")],
                            body := .json [⟨[0], []⟩] },
          writeToS3Called := true } := by decide

/-! ## Claim C1 -/

/-- Claim C1 as stated is false on the code: the status code is passed
through, but the body the handler writes is `fmt.Fprintln(w, err)` — the
`statusCodeError` message wrapping the backend body — not the backend's raw
body verbatim.  Concretely, for a backend 404 with body `"not found"` the
handler's body is the wrapped message, which differs from `"not found"`. -/
theorem claim_C1_counterexample :
    (ServeHTTP ⟨"u", 4⟩ "/ct/v1/get-entries" "0" "0"
      ⟨.noSuchKeyResp, .nonOK 404 "not found", ⟨none, none, none⟩⟩).result
      = .resp { status := 404, headers := [],
                body := .text "backend responded with status code 404 and body:\nnot found\n" } ∧
    ("backend responded with status code 404 and body:\nnot found\n" : String) ≠ "not found" := by
  decide

/-- Claim C1 (amended): on a cache miss with a non-200 backend response the
handler responds with the backend's exact status code, and with body equal to
the `statusCodeError` message (`"backend responded with status code <code>
and body:\n<body>"` plus the `Fprintln` newline), which contains the
backend's raw body as a substring but is not the raw body itself. -/
theorem claim_C1 (tch : tileCachingHandler) (path startQ endQ : String)
    (putEnv : S3PutEnv) (code : Nat) (body : String) (s e : Int)
    (hpath : goHasSuffix path "/ct/v1/get-entries" = true)
    (hparse : parseQueryParams startQ endQ = .ok (s, e))
    (_hcode : code ≠ 200) :
    (ServeHTTP tch path startQ endQ ⟨.noSuchKeyResp, .nonOK code body, putEnv⟩).result
      = .resp { status := code, headers := [],
                body := .text (statusCodeErrorMessage code body ++ "\n") } ∧
    body.data <:+: (statusCodeErrorMessage code body ++ "\n").data := by
  constructor
  · simp [ServeHTTP, hpath, hparse, getFromS3, getTileFromBackend]
  · refine ⟨("backend responded with status code " ++ goNatRepr code ++ " and body:\n").data,
      "\n".data, ?_⟩
    simp only [statusCodeErrorMessage, string_data_append, List.append_assoc]

/-- Witness for claim C1's amended theorem: backend 404 `"not found"`. -/
theorem claim_C1_witness :
    (ServeHTTP ⟨"u", 4⟩ "/ct/v1/get-entries" "5" "5"
      ⟨.noSuchKeyResp, .nonOK 404 "not found", ⟨none, none, none⟩⟩).result
      = .resp { status := 404, headers := [],
                body := .text (statusCodeErrorMessage 404 "not found" ++ "\n") } ∧
    ("not found" : String).data <:+: (statusCodeErrorMessage 404 "not found" ++ "\n").data :=
  claim_C1 ⟨"u", 4⟩ "/ct/v1/get-entries" "5" "5" ⟨none, none, none⟩ 404 "not found" 5 6
    (by rfl) (by rfl) (by decide)

/-! ## Claim C9 -/

/-- Claim C9 as stated is false on the code: a cache hit does not always
produce a 200.  With `start=0`, `end=9223372036854775807` (accepted by
`parseQueryParams`; internal end wraps to `-2^63`) and a cached full tile,
`requestedLen = end - start` is negative, `len(entries) > int(requestedLen)`
holds, and the slice `contents.Entries[:requestedLen]` panics.  The 400
branch is still never taken — the run panics instead of responding. -/
theorem claim_C9_counterexample :
    getFromS3 (makeTile 0 8 "u") (.found (List.replicate 8 ⟨[], []⟩))
      = .ok (List.replicate 8 ⟨[], []⟩) ∧
    (ServeHTTP ⟨"u", 8⟩ "/ct/v1/get-entries" "0" "9223372036854775807"
      ⟨.found (List.replicate 8 ⟨[], []⟩), .transportErr "unreachable", ⟨none, none, none⟩⟩).result
      = .panicked "slice bounds out of range" := by decide

/-- Every header already set on the response writer is present on any
response `truncateAndRespond` produces. -/
theorem truncateAndRespond_headers {start endPos : Int} {t : tile} {es : List entry}
    {hs : List (String × String)} {r : HTTPResponse}
    (h : truncateAndRespond start endPos t es hs = .resp r) :
    ∀ p ∈ hs, p ∈ r.headers := by
  unfold truncateAndRespond at h
  simp only [] at h
  repeat' split at h
  all_goals
    first
    | exact HandlerResult.noConfusion h
    | (simp only [HandlerResult.resp.injEq] at h
       subst h
       intro p hp
       simp [hp])

/-! ## Claim C5 -/

/-- Claim C5: on a cache miss with a successful backend fetch, the handler
calls the cache write exactly when the fetched batch length equals the
configured tile size; when the batch is shorter, no cache write happens and
any response the handler produces carries `X-Partial-Tile: true`; and the
stored-batch invariant holds: whenever `writeToS3` reaches its `PutObject`
call, the batch length equals the tile's size. -/
theorem claim_C5 (tch : tileCachingHandler) (path startQ endQ : String)
    (env : ServeEnv) (es : List entry) (s e : Int)
    (hpath : goHasSuffix path "/ct/v1/get-entries" = true)
    (hparse : parseQueryParams startQ endQ = .ok (s, e))
    (hcache : env.cacheResp = .noSuchKeyResp)
    (hfetch : getTileFromBackend (makeTile s tch.tileSize tch.logURL) env.backendResp = .ok es) :
    ((ServeHTTP tch path startQ endQ env).writeToS3Called = true
      ↔ (es.length : Int) = tch.tileSize) ∧
    ((es.length : Int) < tch.tileSize →
      (ServeHTTP tch path startQ endQ env).writeToS3Called = false ∧
      ∀ r, (ServeHTTP tch path startQ endQ env).result = .resp r →
        ("X-Partial-Tile", "true") ∈ r.headers) ∧
    (∀ (t' : tile) (es' : List entry) (penv : S3PutEnv),
      (writeToS3 t' es' penv).putAttempted = true → (es'.length : Int) = t'.size) := by
  have hserve : ServeHTTP tch path startQ endQ env =
      if (es.length : Int) = tch.tileSize then
        match (writeToS3 (makeTile s tch.tileSize tch.logURL) es env.putEnv).errMsg with
        | some m =>
          { result := .resp { status := 500, headers := [],
                              body := .text ("writing to s3: " ++ m ++ "\n") },
            writeToS3Called := true }
        | none =>
          { result := truncateAndRespond s e (makeTile s tch.tileSize tch.logURL) es
              [("X-Source", "CT log")],
            writeToS3Called := true }
      else
        { result := truncateAndRespond s e (makeTile s tch.tileSize tch.logURL) es
            [("X-Partial-Tile", "true"), ("X-Source", "CT log")],
          writeToS3Called := false } := by
    simp [ServeHTTP, hpath, hparse, hcache, getFromS3, hfetch]
  rw [hserve]
  refine ⟨?_, ?_, ?_⟩
  · by_cases hlen : (es.length : Int) = tch.tileSize
    · rw [if_pos hlen]
      cases hm : (writeToS3 (makeTile s tch.tileSize tch.logURL) es env.putEnv).errMsg <;>
        simp [hlen]
    · rw [if_neg hlen]
      simp [hlen]
  · intro hlt
    have hne : ¬ ((es.length : Int) = tch.tileSize) := by omega
    rw [if_neg hne]
    refine ⟨rfl, ?_⟩
    intro r hr
    exact truncateAndRespond_headers hr ("X-Partial-Tile", "true") (by simp)
  · intro t' es' penv hput
    unfold writeToS3 at hput
    split at hput
    · simp at hput
    · rename_i hguard
      rw [not_or] at hguard
      repeat' split at hput
      all_goals simp_all

/-- Witness for claim C5 at a concrete partial fetch: tile size 2, backend
returns one entry — no write, partial header present. -/
theorem claim_C5_witness :
    ((ServeHTTP ⟨"u", 2⟩ "/ct/v1/get-entries" "0" "0"
        ⟨.noSuchKeyResp, .okJSON [⟨[7], []⟩], ⟨none, none, none⟩⟩).writeToS3Called = true
      ↔ (([⟨[7], []⟩] : List entry).length : Int) = (2 : Int)) ∧
    ((([⟨[7], []⟩] : List entry).length : Int) < (2 : Int) →
      (ServeHTTP ⟨"u", 2⟩ "/ct/v1/get-entries" "0" "0"
        ⟨.noSuchKeyResp, .okJSON [⟨[7], []⟩], ⟨none, none, none⟩⟩).writeToS3Called = false ∧
      ∀ r, (ServeHTTP ⟨"u", 2⟩ "/ct/v1/get-entries" "0" "0"
        ⟨.noSuchKeyResp, .okJSON [⟨[7], []⟩], ⟨none, none, none⟩⟩).result = .resp r →
        ("X-Partial-Tile", "true") ∈ r.headers) ∧
    (∀ (t' : tile) (es' : List entry) (penv : S3PutEnv),
      (writeToS3 t' es' penv).putAttempted = true → (es'.length : Int) = t'.size) :=
  claim_C5 ⟨"u", 2⟩ "/ct/v1/get-entries" "0" "0"
    ⟨.noSuchKeyResp, .okJSON [⟨[7], []⟩], ⟨none, none, none⟩⟩ [⟨[7], []⟩] 0 1
    (by rfl) (by rfl) (by rfl) (by rfl)

/-! ## Claim C6 -/

/-- Claim C6: `parseQueryParams` fails exactly when `start` or `end` is
missing, fails to parse as an in-range `int64`, is negative, or `end < start`;
on every accepted input it returns `(start, end + 1)` (the `+ 1` in Go `int64`
arithmetic, equal to the mathematical `end + 1` whenever `end < 2^63 - 1`);
and when `start` is missing the error message is `"missing start parameter"`. -/
theorem claim_C6 (startS endS : String) :
    ((∃ msg, parseQueryParams startS endS = .error msg) ↔
      (startS = "" ∨ endS = "" ∨ goParseInt64 startS = none ∨ goParseInt64 endS = none ∨
        (∃ v, goParseInt64 startS = some v ∧ v < 0) ∨
        (∃ w, goParseInt64 endS = some w ∧ w < 0) ∨
        (∃ v w, goParseInt64 startS = some v ∧ goParseInt64 endS = some w ∧ w < v))) ∧
    (∀ v w, goParseInt64 startS = some v → goParseInt64 endS = some w →
      0 ≤ v → 0 ≤ w → v ≤ w → startS ≠ "" → endS ≠ "" →
      parseQueryParams startS endS = .ok (v, add64 w 1) ∧
      (w < int64Max → add64 w 1 = w + 1)) ∧
    (startS = "" → parseQueryParams startS endS = .error "missing start parameter") := by
  refine ⟨?_, ?_, ?_⟩
  · unfold parseQueryParams
    by_cases ha : startS = ""
    · simp [ha]
    · by_cases hb : endS = ""
      · simp [ha, hb]
      · cases hps : goParseInt64 startS with
        | none => simp [ha, hb, hps]
        | some v =>
          by_cases hv : v < 0
          · simp [ha, hb, hps, hv]
          · cases hpe : goParseInt64 endS with
            | none => simp [ha, hb, hps, hpe, hv]
            | some w =>
              by_cases hw : w < 0
              · simp [ha, hb, hps, hpe, hv, hw]
              · by_cases hlt : w < v
                · simp [ha, hb, hps, hpe, hv, hw, hlt]
                · simp [ha, hb, hps, hpe, hv, hw, hlt]
  · intro v w hv hw hv0 hw0 hvw ha hb
    constructor
    · unfold parseQueryParams
      rw [if_neg ha, if_neg hb]
      simp only [hv, hw]
      rw [if_neg (by omega : ¬ v < 0), if_neg (by omega : ¬ w < 0),
        if_neg (by omega : ¬ w < v)]
    · intro hwmax
      have hrange := goParseInt64_range hw
      apply add64_eq_add
      · simp only [int64Min, int64Max] at *
        omega
      · simp only [int64Min, int64Max] at *
        omega
  · intro ha
    unfold parseQueryParams
    rw [if_pos ha]

/-- Witness for claim C6: `start` missing gives the missing-start message, and
`start=5`, `end=7` is accepted as the half-open pair `(5, 8)`. -/
theorem claim_C6_witness :
    parseQueryParams "" "7" = .error "missing start parameter" ∧
    parseQueryParams "5" "7" = .ok (5, add64 7 1) := by
  constructor
  · exact (claim_C6 "" "7").2.2 rfl
  · exact ((claim_C6 "5" "7").2.1 5 7 (by rfl) (by rfl) (by decide) (by decide) (by decide)
      (by decide) (by decide)).1

/-! ## Claim C8 -/

/-- Claim C8: for every tile (whose `end` is a representable `int64` above the
minimum, so that `end - 1` does not wrap), the upstream URL is exactly
`<logURL>/ct/v1/get-entries?start=<tile.start>&end=<tile.end - 1>`, and the
closed interval `[start, end-1]` requested upstream contains precisely the
indexes of the internal half-open interval `[start, end)`. -/
theorem claim_C8 (t : tile) (h1 : int64Min < t.end_) (h2 : t.end_ ≤ int64Max) :
    t.url = t.logURL ++ "/ct/v1/get-entries?start=" ++ goIntRepr t.start ++ "&end=" ++
      goIntRepr (t.end_ - 1) ∧
    (∀ i : Int, (t.start ≤ i ∧ i ≤ t.end_ - 1) ↔ (t.start ≤ i ∧ i < t.end_)) := by
  have hsub : sub64 t.end_ 1 = t.end_ - 1 := by
    apply sub64_eq_sub
    · simp only [int64Min] at h1 ⊢
      omega
    · simp only [int64Max] at h2 ⊢
      omega
  constructor
  · unfold tile.url
    rw [hsub]
  · intro i
    constructor
    · rintro ⟨hl, hr⟩
      exact ⟨hl, by omega⟩
    · rintro ⟨hl, hr⟩
      exact ⟨hl, by omega⟩

/-- Witness for claim C8 at the tile `[1000, 2000)` of size 1000. -/
theorem claim_C8_witness :
    (⟨1000, 2000, 1000, "http://log"⟩ : tile).url
      = "http://log" ++ "/ct/v1/get-entries?start=" ++ goIntRepr 1000 ++ "&end=" ++
        goIntRepr (2000 - 1) ∧
    (∀ i : Int, ((1000 : Int) ≤ i ∧ i ≤ 2000 - 1) ↔ ((1000 : Int) ≤ i ∧ i < 2000)) :=
  claim_C8 ⟨1000, 2000, 1000, "http://log"⟩ (by decide) (by decide)

/-! ## Claim C3 -/

theorem goSliceFrom_eq {es : List entry} {i : Int} (h0 : 0 ≤ i)
    (h1 : i ≤ (es.length : Int)) : goSliceFrom es i = some (es.drop i.toNat) := by
  unfold goSliceFrom
  rw [if_pos ⟨h0, h1⟩]

theorem goSliceUpTo_eq {es : List entry} {i : Int} (h0 : 0 ≤ i)
    (h1 : i ≤ (es.length : Int)) : goSliceUpTo es i = some (es.take i.toNat) := by
  unfold goSliceUpTo
  rw [if_pos ⟨h0, h1⟩]

set_option maxRecDepth 40000 in
/-- Claim C3: in the Truncate step with `prefix = requestedStart - tile.start`
(nonnegative and computed without wrap, as holds for every tile the handler
builds, and with a nonnegative requested length `end - start`): if
`prefix >= len(batch)` the result is the 400 response with body
`"requested range is past the end of the log"`; otherwise it is a 200
response whose body is exactly `batch[prefix : prefix + min(end - start,
len(batch) - prefix)]` and whose `X-Response-Len` header is that count.
Scenario A: `tileSize=1000`, request `start=1234&end=1234`, backend returns a
full 1000-entry tile → 200, `X-Source: CT log`, `X-Response-Len: 1`, body
exactly the entry at offset 234. -/
theorem claim_C3 :
    (∀ (start endPos : Int) (t : tile) (es : List entry) (hs : List (String × String)),
      0 ≤ start - t.start → sub64 start t.start = start - t.start →
      0 ≤ endPos - start → sub64 endPos start = endPos - start →
      ((start - t.start ≥ (es.length : Int) →
        truncateAndRespond start endPos t es hs =
          .resp { status := 400, headers := hs,
                  body := .text "requested range is past the end of the log" }) ∧
      (start - t.start < (es.length : Int) →
        truncateAndRespond start endPos t es hs =
          .resp { status := 200,
                  headers := hs ++ [("X-Response-Len",
                    goNatRepr (min (endPos - start).toNat
                      (es.length - (start - t.start).toNat)))],
                  body := .json ((es.drop (start - t.start).toNat).take
                    (min (endPos - start).toNat
                      (es.length - (start - t.start).toNat))) }))) ∧
    ServeHTTP ⟨"http://log", 1000⟩ "/ct/v1/get-entries" "1234" "1234"
      ⟨.noSuchKeyResp, .okJSON ((List.range 1000).map fun i => ⟨[i], []⟩), ⟨none, none, none⟩⟩
      = { result := .resp { status := 200,
                            headers := [("X-Source", "CT log"), ("X-Response-Len", "1")],
                            body := .json [⟨[234], []⟩] },
          writeToS3Called := true } := by
  constructor
  · intro start endPos t es hs h0 hw0 h1 hw1
    unfold truncateAndRespond
    simp only []
    rw [hw0, hw1]
    constructor
    · intro hge
      rw [if_pos hge]
    · intro hlt
      rw [if_neg (by omega)]
      rw [goSliceFrom_eq h0 (by omega)]
      simp only []
      by_cases hcap : (((es.drop (start - t.start).toNat).length : Int) > endPos - start)
      · rw [if_pos hcap]
        rw [goSliceUpTo_eq h1 (by simp only [List.length_drop] at hcap ⊢; omega)]
        simp only []
        have hM : min (endPos - start).toNat (es.length - (start - t.start).toNat)
            = (endPos - start).toNat := by
          simp only [List.length_drop] at hcap
          omega
        have hlen2 : ((es.drop (start - t.start).toNat).take (endPos - start).toNat).length
            = (endPos - start).toNat := by
          simp only [List.length_take, List.length_drop] at hcap ⊢
          omega
        rw [hM, hlen2]
      · rw [if_neg hcap]
        have hM : min (endPos - start).toNat (es.length - (start - t.start).toNat)
            = es.length - (start - t.start).toNat := by
          simp only [List.length_drop] at hcap
          omega
        have hlen1 : (es.drop (start - t.start).toNat).length
            = es.length - (start - t.start).toNat := by
          simp only [List.length_drop]
        rw [hM, ← hlen1, List.take_length]
  · decide

theorem getFromS3_ok {t : tile} {resp : S3GetResp} {es : List entry}
    (h : getFromS3 t resp = .ok es) :
    resp = .found es ∧ (es.length : Int) = t.size ∧ t.end_ = add64 t.start t.size := by
  cases resp with
  | noSuchKeyResp => exact S3GetResult.noConfusion h
  | ioErr m => exact S3GetResult.noConfusion h
  | corrupt m => exact S3GetResult.noConfusion h
  | found es' =>
    simp only [getFromS3] at h
    split at h
    · exact S3GetResult.noConfusion h
    · rename_i hguard
      rw [not_or] at hguard
      simp only [S3GetResult.ok.injEq] at h
      subst h
      exact ⟨rfl, by simpa using hguard.1, by simpa using hguard.2⟩

/-- Claim C9 (amended): `getFromS3` only returns batches of length exactly
`tile.size`, and on every cache hit the prefix `start - tile.start` is in
`[0, tile.size)`, so the 400 "requested range is past the end of the log"
branch is unreachable; every cache hit whose requested length `end - start`
is nonnegative (equivalently, whose `end` query parameter is below
`2^63 - 1`) yields a 200; at `end = 2^63 - 1` with `start = 0` the handler
panics on the slice bound instead of responding 200 (see the
counterexample). -/
theorem claim_C9 (tch : tileCachingHandler) (path startQ endQ : String)
    (env : ServeEnv) (es : List entry) (s e : Int)
    (hpath : goHasSuffix path "/ct/v1/get-entries" = true)
    (hsize : 0 < tch.tileSize) (hsizemax : tch.tileSize ≤ int64Max)
    (hparse : parseQueryParams startQ endQ = .ok (s, e))
    (hcache : getFromS3 (makeTile s tch.tileSize tch.logURL) env.cacheResp = .ok es) :
    (es.length : Int) = tch.tileSize ∧
    sub64 s (makeTile s tch.tileSize tch.logURL).start < (es.length : Int) ∧
    (∀ r, (ServeHTTP tch path startQ endQ env).result = .resp r →
      r.body ≠ .text "requested range is past the end of the log") ∧
    (0 ≤ sub64 e s →
      ∃ r, (ServeHTTP tch path startQ endQ env).result = .resp r ∧ r.status = 200) := by
  obtain ⟨hfound, hlen, hend⟩ := getFromS3_ok hcache
  obtain ⟨-, -, w, hpw, hpe', hs0, hw0, hsw, he⟩ := parseQueryParams_ok hparse
  have hsrange := goParseInt64_range hpw
  have hm : 0 ≤ Int.tmod s tch.tileSize := Int.tmod_nonneg _ hs0
  have hmlt : Int.tmod s tch.tileSize < tch.tileSize := Int.tmod_lt_of_pos s hsize
  have hrle : Int.tmod s tch.tileSize ≤ s := by
    have htd := Int.tmod_add_tdiv s tch.tileSize
    have htdnn := Int.tdiv_nonneg hs0 (le_of_lt hsize)
    nlinarith
  have hstart : (makeTile s tch.tileSize tch.logURL).start = s - Int.tmod s tch.tileSize := by
    show sub64 s (Int.tmod s tch.tileSize) = s - Int.tmod s tch.tileSize
    apply sub64_eq_sub
    · simp only [int64Min]
      omega
    · simp only [int64Max] at hsrange ⊢
      omega
  have hpreeq : sub64 s (makeTile s tch.tileSize tch.logURL).start
      = Int.tmod s tch.tileSize := by
    rw [hstart]
    have heq : s - (s - Int.tmod s tch.tileSize) = Int.tmod s tch.tileSize := by ring
    calc sub64 s (s - Int.tmod s tch.tileSize)
        = s - (s - Int.tmod s tch.tileSize) := by
          apply sub64_eq_sub
          · rw [heq]
            simp only [int64Min]
            omega
          · rw [heq]
            simp only [int64Max] at hsizemax ⊢
            omega
      _ = Int.tmod s tch.tileSize := heq
  have hpre : sub64 s (makeTile s tch.tileSize tch.logURL).start < (es.length : Int) := by
    rw [hpreeq, hlen]
    exact hmlt
  have h0pre : 0 ≤ sub64 s (makeTile s tch.tileSize tch.logURL).start := by
    rw [hpreeq]
    exact hm
  have hserve : ServeHTTP tch path startQ endQ env =
      { result := truncateAndRespond s e (makeTile s tch.tileSize tch.logURL) es
          [("X-Source", "S3")],
        writeToS3Called := false } := by
    simp [ServeHTTP, hpath, hparse, hcache]
  have htrunc : ∀ r, truncateAndRespond s e (makeTile s tch.tileSize tch.logURL) es
      [("X-Source", "S3")] = .resp r → r.status = 200 ∧ ∃ l, r.body = .json l := by
    intro r hr
    unfold truncateAndRespond at hr
    simp only [] at hr
    rw [if_neg (by omega :
      ¬ sub64 s (makeTile s tch.tileSize tch.logURL).start ≥ (es.length : Int))] at hr
    rw [goSliceFrom_eq h0pre (by omega)] at hr
    simp only [] at hr
    repeat' split at hr
    all_goals
      first
      | exact HandlerResult.noConfusion hr
      | (simp only [HandlerResult.resp.injEq] at hr
         subst hr
         exact ⟨rfl, _, rfl⟩)
  refine ⟨hlen, hpre, ?_, ?_⟩
  · intro r hr
    rw [hserve] at hr
    simp only [] at hr
    obtain ⟨-, l, hb⟩ := htrunc r hr
    rw [hb]
    exact ResponseBody.noConfusion
  · intro hreq
    rw [hserve]
    simp only []
    unfold truncateAndRespond
    simp only []
    rw [if_neg (by omega :
      ¬ sub64 s (makeTile s tch.tileSize tch.logURL).start ≥ (es.length : Int))]
    rw [goSliceFrom_eq h0pre (by omega)]
    simp only []
    by_cases hcap :
        (((es.drop (sub64 s (makeTile s tch.tileSize tch.logURL).start).toNat).length : Int)
          > sub64 e s)
    · rw [if_pos hcap, goSliceUpTo_eq hreq (by omega)]
      simp only []
      exact ⟨_, rfl, rfl⟩
    · rw [if_neg hcap]
      exact ⟨_, rfl, rfl⟩

/-- Witness for claim C3's truncation property: tile `[4, 8)`, 4 entries,
request `[5, 6)` — one entry at offset 1, `X-Response-Len: 1`. -/
theorem claim_C3_witness :
    truncateAndRespond 5 6 ⟨4, 8, 4, "u"⟩ [⟨[0], []⟩, ⟨[1], []⟩, ⟨[2], []⟩, ⟨[3], []⟩] []
      = .resp { status := 200, headers := [("X-Response-Len", goNatRepr 1)],
                body := .json [⟨[1], []⟩] } := by
  have h := (claim_C3.1 5 6 ⟨4, 8, 4, "u"⟩ [⟨[0], []⟩, ⟨[1], []⟩, ⟨[2], []⟩, ⟨[3], []⟩] []
    (by decide) (by decide) (by decide) (by decide)).2 (by decide)
  rw [h]
  decide

/-- Witness for claim C9's amended theorem at a concrete cache hit:
tile size 4, request `start=5&end=6`, cached batch of 4 entries. -/
theorem claim_C9_witness :
    (([⟨[0], []⟩, ⟨[1], []⟩, ⟨[2], []⟩, ⟨[3], []⟩] : List entry).length : Int) = 4 ∧
    sub64 5 (makeTile 5 4 "u").start
      < (([⟨[0], []⟩, ⟨[1], []⟩, ⟨[2], []⟩, ⟨[3], []⟩] : List entry).length : Int) ∧
    (∀ r, (ServeHTTP ⟨"u", 4⟩ "/ct/v1/get-entries" "5" "6"
        ⟨.found [⟨[0], []⟩, ⟨[1], []⟩, ⟨[2], []⟩, ⟨[3], []⟩], .transportErr "x",
          ⟨none, none, none⟩⟩).result = .resp r →
      r.body ≠ .text "requested range is past the end of the log") ∧
    (0 ≤ sub64 7 5 →
      ∃ r, (ServeHTTP ⟨"u", 4⟩ "/ct/v1/get-entries" "5" "6"
        ⟨.found [⟨[0], []⟩, ⟨[1], []⟩, ⟨[2], []⟩, ⟨[3], []⟩], .transportErr "x",
          ⟨none, none, none⟩⟩).result = .resp r ∧ r.status = 200) :=
  claim_C9 ⟨"u", 4⟩ "/ct/v1/get-entries" "5" "6"
    ⟨.found [⟨[0], []⟩, ⟨[1], []⟩, ⟨[2], []⟩, ⟨[3], []⟩], .transportErr "x",
      ⟨none, none, none⟩⟩ [⟨[0], []⟩, ⟨[1], []⟩, ⟨[2], []⟩, ⟨[3], []⟩] 5 7
    (by rfl) (by decide) (by decide) (by rfl) (by rfl)

/-! ## Claim C7 -/

theorem mk_data (l : List Char) : (String.mk l).data = l := rfl

/-- The character list of a tile's S3 key, for nonnegative `size` and
`start`: the fixed prefix, the size digits, `'/'`, the start digits, and the
fixed suffix. -/
theorem key_data (t : tile) (h1 : 0 ≤ t.size) (h2 : 0 ≤ t.start) :
    t.key.data = "tile_size=".data ++
      (decDigits t.size.toNat ++ '/' :: (decDigits t.start.toNat ++ '.' :: "cbor.gz".data)) := by
  unfold tile.key
  unfold goIntRepr
  rw [if_neg (by omega : ¬ t.size < 0), if_neg (by omega : ¬ t.start < 0)]
  have hdot : (".cbor.gz" : String).data = '.' :: ("cbor.gz" : String).data := rfl
  have hslash : ("/" : String).data = ['/'] := rfl
  simp only [string_data_append, mk_data, hdot, hslash, List.append_assoc,
    List.singleton_append, List.cons_append, List.nil_append]

/-- Claim C7: for tiles with nonnegative `size` and `start` (every tile the
handler builds), the S3 key `"tile_size=<size>/<start>.cbor.gz"` is a pure
function of `(size, start)` and is injective: two keys are equal exactly when
both the size and the start agree. -/
theorem claim_C7 (t1 t2 : tile) (h1 : 0 ≤ t1.size) (h2 : 0 ≤ t1.start)
    (h3 : 0 ≤ t2.size) (h4 : 0 ≤ t2.start) :
    t1.key = t2.key ↔ (t1.size = t2.size ∧ t1.start = t2.start) := by
  constructor
  · intro hkey
    have hdata : t1.key.data = t2.key.data := by rw [hkey]
    rw [key_data t1 h1 h2, key_data t2 h3 h4] at hdata
    have hdata2 := List.append_cancel_left hdata
    obtain ⟨hsz, hrest⟩ := sep_split _ _ _ _
      (slash_not_mem_decDigits t1.size.toNat) (slash_not_mem_decDigits t2.size.toNat) hdata2
    obtain ⟨hst, -⟩ := sep_split _ _ _ _
      (dot_not_mem_decDigits t1.start.toNat) (dot_not_mem_decDigits t2.start.toNat) hrest
    have hszn : t1.size.toNat = t2.size.toNat := decDigits_inj hsz
    have hstn : t1.start.toNat = t2.start.toNat := decDigits_inj hst
    constructor
    · omega
    · omega
  · rintro ⟨hs, hst⟩
    unfold tile.key
    rw [hs, hst]

/-- Witness for claim C7: tiles of equal size 1000 at starts 1000 and 2000
have different keys. -/
theorem claim_C7_witness :
    ((⟨1000, 2000, 1000, "u"⟩ : tile).key = (⟨2000, 3000, 1000, "u"⟩ : tile).key
      ↔ ((1000 : Int) = 1000 ∧ (1000 : Int) = 2000)) :=
  claim_C7 ⟨1000, 2000, 1000, "u"⟩ ⟨2000, 3000, 1000, "u"⟩
    (by decide) (by decide) (by decide) (by decide)
